import Mathlib

/-!
Shallow embedding of the `lingio/object-storage` Go repository
(`cloud_storage.go` in its two-field-config revision, and `querier.go`).

The repository is a typed CRUD wrapper over the Google Cloud Storage
client.  We model:

* Go `error` values and the `errors.Is` chain (with `fmt.Errorf`/`%w`
  wrapping, `Unwrap`, and the custom `Is` method of `storageError`);
* the remote bucket as an association list from object name to
  (bytes, generation, content type), with the GCS client's documented
  conditional-write semantics (`DoesNotExist`, `GenerationMatch`,
  commit-on-`Close`);
* transient faults of the remote calls (`Attrs`, `io.Copy`,
  `writer.Close`, `NewReader`, `ReadAll`, `Delete`) as an explicit
  fault-injection record, so that every error path of the Go code is
  inhabited;
* JSON (de)serialization of the generic value type `T` as an abstract
  codec, since the store does not interpret the bytes.

Each repository function is translated statement by statement from the
Go source; the external GCS client behaviour is modelled from its
documented contract (conditional create, byte read, generation-scoped
conditional write, delete).
-/

/-- Bytes of a stored object, as produced by `json.Marshal`. -/
abbrev Bytes := List Nat

/-- Go `error` values occurring in this repository: the two sentinels
(`storage.ErrObjectNotExist` from the GCS client, the public
`ErrObjectNotFound` from `querier.go`), the GCS precondition-failure
error (HTTP 412) returned by `writer.Close` when a conditional write's
precondition does not hold at commit time, generic I/O and
(un)marshalling errors, `fmt.Errorf("...%w", err)` wrapping, and the
`storageError{cause, mask}` struct of `querier.go`. -/
inductive GoError where
  | errObjectNotExist
  | errObjectNotFound
  | errPreconditionFailed
  | ioError (msg : String)
  | marshalError (msg : String)
  | unmarshalError (msg : String)
  | wrapf (msg : String) (inner : GoError)
  | storageErr (cause : GoError) (mask : GoError)
deriving DecidableEq

/-- `Unwrap`: `fmt.Errorf` with `%w` unwraps to the wrapped error;
`storageError.Unwrap` returns `s.mask` (querier.go). -/
def unwrapErr : GoError → Option GoError
  | .wrapf _ inner => some inner
  | .storageErr _ mask => some mask
  | _ => none

/-- Go `errors.Is(err, target)`: at each step compare for identity,
consult a custom `Is` method when the dynamic type has one (only
`storageError` does: `s.mask == e || s.cause == e`, querier.go), then
follow `Unwrap`. -/
def errorsIs : GoError → GoError → Bool
  | e, target =>
    (e == target) ||
    (match e with
     | .storageErr cause mask => mask == target || cause == target
     | _ => false) ||
    (match e with
     | .wrapf _ inner => errorsIs inner target
     | .storageErr _ mask => errorsIs mask target
     | _ => false)

/-- The `Error()` string of each error value.  `fmt.Errorf` renders the
format prefix followed by the wrapped error; `storageError.Error()` is
`mask.Error() + ": " + cause.Error()` (querier.go). -/
def errorMessage : GoError → String
  | .errObjectNotExist => "storage: object does not exist"
  | .errObjectNotFound => "object not found"
  | .errPreconditionFailed => "googleapi: Error 412: conditionNotMet"
  | .ioError m => m
  | .marshalError m => m
  | .unmarshalError m => m
  | .wrapf p inner => p ++ errorMessage inner
  | .storageErr cause mask => errorMessage mask ++ ": " ++ errorMessage cause

/-- `true` iff `pat` is a leading segment of `s`. -/
def charsStartWith : List Char → List Char → Bool
  | _, [] => true
  | [], _ :: _ => false
  | c :: cs, p :: ps => c == p && charsStartWith cs ps

/-- `true` iff `pat` occurs as a contiguous segment of `s`. -/
def charsContain : List Char → List Char → Bool
  | [], pat => pat.isEmpty
  | c :: rest, pat => charsStartWith (c :: rest) pat || charsContain rest pat

/-- `true` iff `pat` occurs as a substring of `s`. -/
def strContains (s pat : String) : Bool :=
  charsContain s.data pat.data

/-- `true` iff the error is an `fmt.Errorf`-style wrap. -/
def isWrapf : GoError → Bool
  | .wrapf _ _ => true
  | _ => false

/-- `wrapStorageError` from querier.go: masks the GCS not-exist signal
behind the public `ErrObjectNotFound` sentinel, keeping the original
cause; every other error (including `nil`) is returned unchanged. -/
def wrapStorageError : Option GoError → Option GoError
  | none => none
  | some e =>
    if errorsIs e .errObjectNotExist then
      some (.storageErr e .errObjectNotFound)
    else
      some e

/-- Replace the first occurrence of `%s` in the character list by
`arg`, or `none` if there is no `%s` verb. -/
def replaceFirstVerb : List Char → List Char → Option (List Char)
  | [], _ => none
  | '%' :: 's' :: rest, arg => some (arg ++ rest)
  | c :: rest, arg => (replaceFirstVerb rest arg).map (c :: ·)

/-- `fmt.Sprintf` restricted to format strings with at most one `%s`
verb, which is all this repository uses: the single `%s` is replaced by
the argument, and a format with no verb gets Go's
`%!(EXTRA string=...)` marker appended for the unconsumed argument. -/
def sprintf1 (format arg : String) : String :=
  match replaceFirstVerb format.data arg.data with
  | some cs => ⟨cs⟩
  | none => format ++ "%!(EXTRA string=" ++ arg ++ ")"

/-- A stored object held by the remote service: serialized bytes, the
service-assigned generation tag, and the stamped content type. -/
structure StoredObject where
  data : Bytes
  generation : Int
  contentType : String
deriving DecidableEq

/-- The remote bucket: association list from object name (the mapped
filename) to stored object, plus the next fresh generation tag the
service will assign (generations are never reused). -/
structure Bucket where
  objects : List (String × StoredObject)
  nextGen : Int
deriving DecidableEq

def Bucket.lookup (b : Bucket) (name : String) : Option StoredObject :=
  (b.objects.find? (fun p => p.1 == name)).map Prod.snd

/-- A successful commit replaces the object under `name` and assigns a
fresh generation tag. -/
def Bucket.commit (b : Bucket) (name : String) (data : Bytes) (ct : String) : Bucket :=
  ⟨(name, ⟨data, b.nextGen, ct⟩) :: b.objects.filter (fun p => p.1 != name), b.nextGen + 1⟩

def Bucket.erase (b : Bucket) (name : String) : Bucket :=
  ⟨b.objects.filter (fun p => p.1 != name), b.nextGen⟩

/-- Injected transient failures of the individual remote calls, so each
error path of the Go code is reachable in the model.  `none` means the
call behaves according to the bucket state. -/
structure Faults where
  attrs : Option GoError
  copy : Option GoError
  close : Option GoError
  newReader : Option GoError
  readAll : Option GoError
  delete : Option GoError
deriving DecidableEq

/-- No injected transient failures. -/
def noFaults : Faults := ⟨none, none, none, none, none, none⟩

/-- The `storage.Conditions` used by this repository: none,
`DoesNotExist: true`, or `GenerationMatch: g`. -/
inductive Conditions where
  | noCond
  | doesNotExist
  | generationMatch (g : Int)
deriving DecidableEq

/-- Whether a write precondition holds against the current bucket
state (evaluated by the service at commit time). -/
def condHolds (c : Conditions) (b : Bucket) (name : String) : Bool :=
  match c with
  | .noCond => true
  | .doesNotExist => (b.lookup name).isNone
  | .generationMatch g =>
    match b.lookup name with
    | some st => st.generation == g
    | none => false

/-- `ObjectHandle.Attrs` of the GCS client: the attributes (we keep only
the generation tag) of the object, or `storage.ErrObjectNotExist` if
there is no such object; a transient fault overrides. -/
def gcsAttrs (fault : Option GoError) (b : Bucket) (name : String) : Except GoError Int :=
  match fault with
  | some e => .error e
  | none =>
    match b.lookup name with
    | some st => .ok st.generation
    | none => .error .errObjectNotExist

/-- `writer.Close()` of the GCS client: commits the buffered bytes if
and only if the precondition scoped on the handle still holds; a
violated precondition yields the 412 precondition-failure error and no
commit; a transient fault also prevents the commit. -/
def gcsClose (fault : Option GoError) (c : Conditions) (b : Bucket) (name : String)
    (ct : String) (data : Bytes) : Option GoError × Bucket :=
  if condHolds c b name then
    match fault with
    | some e => (some e, b)
    | none => (none, b.commit name data ct)
  else
    (some .errPreconditionFailed, b)

/-- `ObjectHandle.Delete` of the GCS client: removes the object, or
fails with `storage.ErrObjectNotExist` if there is none. -/
def gcsDelete (fault : Option GoError) (b : Bucket) (name : String) : Option GoError × Bucket :=
  match fault with
  | some e => (some e, b)
  | none =>
    match b.lookup name with
    | some _ => (none, b.erase name)
    | none => (some .errObjectNotExist, b)

/-- `ObjectHandle.NewReader` of the GCS client: the object's bytes, or
`storage.ErrObjectNotExist` if there is none. -/
def gcsNewReader (fault : Option GoError) (b : Bucket) (name : String) : Except GoError Bytes :=
  match fault with
  | some e => .error e
  | none =>
    match b.lookup name with
    | some st => .ok st.data
    | none => .error .errObjectNotExist

/-- The `CloudStorage` configuration fields (cloud_storage.go), in the
declaration order of the struct: `contenttype` then `filenameformat`
(the client and bucket handles carry no model state of their own). -/
structure CloudStorage where
  contenttype : String
  filenameformat : String
deriving DecidableEq

/-- The functional options accepted at construction time:
`WithFilenameFormat` and `WithContentType` (cloud_storage.go). -/
inductive CSOption where
  | withFilenameFormat (s : String)
  | withContentType (s : String)
deriving DecidableEq

/-- `Option.apply` for each option type (cloud_storage.go):
`WithFilenameFormat` sets `filenameformat`, `WithContentType` sets
`contenttype`. -/
def CSOption.apply (o : CSOption) (cs : CloudStorage) : CloudStorage :=
  match o with
  | .withFilenameFormat s => { cs with filenameformat := s }
  | .withContentType s => { cs with contenttype := s }

/-- `NewCloudStorage` (cloud_storage.go): after the probe against a
guaranteed-nonexistent key (whose outcome is `probeErr`), any probe
error other than not-exist aborts construction; otherwise the struct is
built by the positional literal
`&CloudStorage{client, bucket, "%s.json", "application/json"}`, whose
third value initializes the third field `contenttype` and whose fourth
value initializes the fourth field `filenameformat`, and the options
are applied in order. -/
def NewCloudStorage (probeErr : Option GoError) (opts : List CSOption) :
    Except GoError CloudStorage :=
  match probeErr with
  | some e =>
    if errorsIs e .errObjectNotExist then
      .ok (opts.foldl (fun cs o => o.apply cs)
        { contenttype := "%s.json", filenameformat := "application/json" })
    else
      .error (.wrapf "init check: " e)
  | none =>
    .ok (opts.foldl (fun cs o => o.apply cs)
      { contenttype := "%s.json", filenameformat := "application/json" })

/-- `CloudStorage.Filename` (cloud_storage.go):
`fmt.Sprintf(cs.filenameformat, key)`. -/
def CloudStorage.Filename (cs : CloudStorage) (key : String) : String :=
  sprintf1 cs.filenameformat key

/-- The observable outcome of a write-returning-error operation: the Go
error return, the resulting bucket state, and whether `writer.Close`
(the finalize step, the only call that commits data) was invoked. -/
structure WriteOutcome where
  err : Option GoError
  bucket : Bucket
  closeCalled : Bool
deriving DecidableEq

/-- `CloudStorage.WriteFile` (cloud_storage.go): scopes the write with
`DoesNotExist: true`, stamps `cs.contenttype`, streams the reader via
`io.Copy` (an error there is returned as-is, before `Close`), and only
`Close` commits; a `Close` error is also returned as-is. -/
def CloudStorage.WriteFile (cs : CloudStorage) (f : Faults) (b : Bucket) (key : String)
    (reader : Except GoError Bytes) : WriteOutcome :=
  let name := cs.Filename key
  match reader with
  | .error e => ⟨some e, b, false⟩
  | .ok data =>
    match f.copy with
    | some e => ⟨some e, b, false⟩
    | none =>
      match gcsClose f.close .doesNotExist b name cs.contenttype data with
      | (some e, b') => ⟨some e, b', true⟩
      | (none, b') => ⟨none, b', true⟩

/-- `CloudStorage.GetFile` (cloud_storage.go): opens a reader (not-exist
if the object is absent), passes the error through `wrapStorageError`
and wraps it with `"Get %s: %w"`; then reads all bytes, wrapping a read
error with `"Get %s: readall: %w"`.  The branch where the reader error
is non-nil but `wrapStorageError` returns nil does not occur (see
`wrapStorageError`). -/
def CloudStorage.GetFile (cs : CloudStorage) (f : Faults) (b : Bucket) (key : String) :
    Except GoError Bytes :=
  let name := cs.Filename key
  match gcsNewReader f.newReader b name with
  | .error err =>
    match wrapStorageError (some err) with
    | some err2 => .error (.wrapf ("Get " ++ key ++ ": ") err2)
    | none => .error err
  | .ok data =>
    match f.readAll with
    | some e => .error (.wrapf ("Get " ++ key ++ ": readall: ") e)
    | none => .ok data

/-- The generic JSON codec of the value type `T`: `json.Marshal` and
`json.Unmarshal`, either of which may fail. -/
structure Codec (T : Type) where
  marshal : T → Except GoError Bytes
  unmarshal : Bytes → Except GoError T

/-- `querier.Create` (querier.go): `json.Marshal`, returning a marshal
error as-is; then delegates to `WriteFile` over the marshalled bytes,
returning its error as-is. -/
def querier.Create {T : Type} (cs : CloudStorage) (codec : Codec T) (f : Faults)
    (b : Bucket) (key : String) (obj : T) : WriteOutcome :=
  match codec.marshal obj with
  | .error e => ⟨some e, b, false⟩
  | .ok data => cs.WriteFile f b key (.ok data)

/-- `querier.Get` (querier.go): fetches bytes via `GetFile`, wrapping
any error with `"Get %s: readall: %w"`; then `json.Unmarshal`, wrapping
a decode error with `"Get %s: %w"`. -/
def querier.Get {T : Type} (cs : CloudStorage) (codec : Codec T) (f : Faults)
    (b : Bucket) (key : String) : Except GoError T :=
  match cs.GetFile f b key with
  | .error err => .error (.wrapf ("Get " ++ key ++ ": readall: ") err)
  | .ok data =>
    match codec.unmarshal data with
    | .error err => .error (.wrapf ("Get " ++ key ++ ": ") err)
    | .ok obj => .ok obj

/-- Step 1–2 of `querier.Put` (querier.go): fetch the attributes of the
target object; on success scope the write with
`GenerationMatch: attrs.Generation`; on a not-exist error write
unconditionally; on any other error abort with
`"Put %s: Attrs: %w"`. -/
def putConditions (f : Faults) (b1 : Bucket) (name key : String) :
    Except GoError Conditions :=
  match gcsAttrs f.attrs b1 name with
  | .ok g => .ok (.generationMatch g)
  | .error e =>
    if errorsIs e .errObjectNotExist then
      .ok .noCond
    else
      .error (.wrapf ("Put " ++ key ++ ": Attrs: ") e)

/-- `querier.Put` (querier.go): compare-and-swap update.  `b1` is the
bucket state the `Attrs` call observes (step 1); `b2` is the state at
`writer.Close` time (step 4) — they differ exactly when a concurrent
writer intervened; sequential use passes the same state twice.  The
writer stamps `"application/json"`.  Marshal, copy and close errors are
wrapped with `"Put %s: ..."`. -/
def querier.Put {T : Type} (cs : CloudStorage) (codec : Codec T) (f : Faults)
    (b1 b2 : Bucket) (key : String) (obj : T) : WriteOutcome :=
  let name := cs.Filename key
  match putConditions f b1 name key with
  | .error e => ⟨some e, b2, false⟩
  | .ok cond =>
    match codec.marshal obj with
    | .error e => ⟨some (.wrapf ("Put " ++ key ++ ": ") e), b2, false⟩
    | .ok data =>
      match f.copy with
      | some e => ⟨some (.wrapf ("Put " ++ key ++ ": copy: ") e), b2, false⟩
      | none =>
        match gcsClose f.close cond b2 name "application/json" data with
        | (some e, b') => ⟨some (.wrapf ("Put " ++ key ++ ": Close: ") e), b', true⟩
        | (none, b') => ⟨none, b', true⟩

/-- `querier.Delete` (querier.go): deletes the mapped object; the error
is passed through `wrapStorageError` and, when the result is non-nil,
wrapped with `"Delete %s: %w"`; a fallback branch wraps the raw error
when `wrapStorageError` returned nil on a non-nil error. -/
def querier.Delete (cs : CloudStorage) (f : Faults) (b : Bucket) (key : String) :
    Option GoError × Bucket :=
  let name := cs.Filename key
  match gcsDelete f.delete b name with
  | (err, b') =>
    match wrapStorageError err with
    | some err2 => (some (.wrapf ("Delete " ++ key ++ ": ") err2), b')
    | none =>
      match err with
      | some e => (some (.wrapf ("Delete " ++ key ++ ": ") e), b')
      | none => (none, b')

/-! ### Helper lemmas and concrete fixtures -/

/-- A concrete codec for `T = Nat`: one byte per value, round-tripping. -/
def natCodec : Codec Nat where
  marshal := fun n => .ok [n]
  unmarshal := fun bs =>
    match bs with
    | [n] => .ok n
    | _ => .error (.unmarshalError "bad bytes")

/-- A codec whose marshalling always fails, to exercise the
`json.Marshal` error path. -/
def badCodec : Codec Nat where
  marshal := fun _ => .error (.marshalError "boom")
  unmarshal := fun _ => .error (.unmarshalError "bad bytes")

/-- The configuration the documentation intends as default. -/
def csDefault : CloudStorage := { contenttype := "application/json", filenameformat := "%s.json" }

def bEmpty : Bucket := ⟨[], 1⟩

def bOne : Bucket := ⟨[("k.json", ⟨[7], 5, "application/json"⟩)], 6⟩

theorem charsStartWith_nil (l : List Char) : charsStartWith l [] = true := by
  cases l <;> rfl

theorem charsStartWith_append (x r p : List Char) (h : charsStartWith r p = true) :
    charsStartWith (x ++ r) (x ++ p) = true := by
  induction x with
  | nil => simpa using h
  | cons c cs ih => simp [charsStartWith, ih]

theorem charsContain_of_start (l p : List Char) (h : charsStartWith l p = true) :
    charsContain l p = true := by
  cases l with
  | nil => cases p with
    | nil => rfl
    | cons q qs => simp [charsStartWith] at h
  | cons c cs => simp [charsContain, h]

theorem string_data_append (a b : String) : (a ++ b).data = a.data ++ b.data := by
  cases a
  cases b
  rfl

theorem strContains_append_left (a b : String) : strContains (a ++ b) a = true := by
  have h : charsStartWith (a.data ++ b.data) (a.data ++ []) = true :=
    charsStartWith_append a.data b.data [] (charsStartWith_nil b.data)
  rw [List.append_nil] at h
  unfold strContains
  rw [string_data_append]
  exact charsContain_of_start _ _ h

theorem errorsIs_self (e : GoError) : errorsIs e e = true := by
  unfold errorsIs
  simp

theorem errorsIs_wrapf (p : String) (inner t : GoError) (h : errorsIs inner t = true) :
    errorsIs (.wrapf p inner) t = true := by
  unfold errorsIs
  simp [h]

theorem find?_filter_ne (name : String) (l : List (String × StoredObject)) :
    (l.filter (fun p => p.1 != name)).find? (fun p => p.1 == name) = none := by
  induction l with
  | nil => rfl
  | cons hd tl ih =>
    cases h : (hd.1 == name) with
    | true => simp [List.filter_cons, bne, h, ih]
    | false =>
      rw [List.filter_cons]
      simp only [bne, h, Bool.not_false, if_true]
      rw [List.find?_cons_of_neg _ (by simp [h])]
      exact ih

theorem lookup_commit_self (b : Bucket) (name : String) (data : Bytes) (ct : String) :
    (b.commit name data ct).lookup name = some ⟨data, b.nextGen, ct⟩ := by
  simp [Bucket.commit, Bucket.lookup, List.find?]

theorem lookup_erase_self (b : Bucket) (name : String) :
    (b.erase name).lookup name = none := by
  simp [Bucket.erase, Bucket.lookup, find?_filter_ne]

/-- `querier.Get` on a key with no backing object: the GCS not-exist
signal is masked by `wrapStorageError` and wrapped twice with the key
context. -/
theorem get_absent (T : Type) (cs : CloudStorage) (codec : Codec T) (f : Faults)
    (b : Bucket) (key : String) (hnr : f.newReader = none)
    (habs : b.lookup (cs.Filename key) = none) :
    querier.Get cs codec f b key =
      .error (.wrapf ("Get " ++ key ++ ": readall: ")
        (.wrapf ("Get " ++ key ++ ": ")
          (.storageErr .errObjectNotExist .errObjectNotFound))) := by
  unfold querier.Get CloudStorage.GetFile gcsNewReader
  simp only [hnr, habs]
  rfl

/-- A fault-free sequential `Put` (same bucket observed at `Attrs` and
`Close` time) always commits: on an absent key it writes
unconditionally, on a present key the `GenerationMatch` precondition it
just observed still holds. -/
theorem put_seq_ok (T : Type) (cs : CloudStorage) (codec : Codec T) (b : Bucket)
    (key : String) (v : T) (d : Bytes) (hm : codec.marshal v = .ok d) :
    querier.Put cs codec noFaults b b key v =
      ⟨none, b.commit (cs.Filename key) d "application/json", true⟩ := by
  unfold querier.Put putConditions gcsAttrs noFaults
  cases hl : b.lookup (cs.Filename key) with
  | none =>
    simp only [hl, hm]
    simp [errorsIs, gcsClose, condHolds, hl]
  | some st =>
    simp only [hl, hm]
    simp [gcsClose, condHolds, hl]

/-- Every error `putConditions` returns is wrapped with
`"Put <key>: Attrs: "`. -/
theorem putConditions_error (f : Faults) (b1 : Bucket) (name key : String) (e : GoError)
    (h : putConditions f b1 name key = .error e) :
    ∃ ea, e = .wrapf ("Put " ++ key ++ ": Attrs: ") ea := by
  unfold putConditions at h
  split at h
  · exact absurd h (by simp)
  · split at h
    · exact absurd h (by simp)
    · exact ⟨_, by injection h with h2; exact h2.symm⟩

/-- A fault-free `Delete` of an existing object succeeds and removes
it. -/
theorem delete_existing (cs : CloudStorage) (f : Faults) (b : Bucket) (key : String)
    (st : StoredObject) (hd : f.delete = none)
    (hex : b.lookup (cs.Filename key) = some st) :
    querier.Delete cs f b key = (none, b.erase (cs.Filename key)) := by
  unfold querier.Delete gcsDelete
  simp only [hd, hex]
  rfl

/-- Claim C10: for every error value `e`, `wrapStorageError e` is
non-nil exactly when `e` is non-nil — it masks the not-exist signal and
returns every other error unchanged — so the fallback branch in
`Delete` that wraps a non-nil `err` after `wrapStorageError` returned
nil is unreachable: `Delete`'s error return is always the branch-one
wrap of `wrapStorageError`'s output. -/
theorem wrapStorageError_nonnil_iff :
    (∀ oe : Option GoError, (wrapStorageError oe).isSome = oe.isSome) ∧
    (∀ e : GoError, wrapStorageError (some e) =
      some (if errorsIs e .errObjectNotExist then .storageErr e .errObjectNotFound else e)) ∧
    (∀ (cs : CloudStorage) (f : Faults) (b : Bucket) (key : String),
      (querier.Delete cs f b key).1 =
        (wrapStorageError (gcsDelete f.delete b (cs.Filename key)).1).map
          (fun e2 => GoError.wrapf ("Delete " ++ key ++ ": ") e2)) := by
  refine ⟨?_, ?_, ?_⟩
  · intro oe
    cases oe with
    | none => rfl
    | some e =>
      by_cases h : errorsIs e .errObjectNotExist = true <;>
        simp [wrapStorageError, h]
  · intro e
    by_cases h : errorsIs e .errObjectNotExist = true <;>
      simp [wrapStorageError, h]
  · intro cs f b key
    cases hg : gcsDelete f.delete b (cs.Filename key) with
    | mk err b' =>
      cases err with
      | none => simp [querier.Delete, hg, wrapStorageError]
      | some e =>
        by_cases h : errorsIs e .errObjectNotExist = true <;>
          simp [querier.Delete, hg, wrapStorageError, h]

/-- Claim C3 (code bug): a store constructed with no options is meant
to have filename format `"%s.json"` and content type
`"application/json"` (as the option doc comments state), but the
positional struct literal in `NewCloudStorage` assigns the two fields
swapped: `contenttype` becomes `"%s.json"` and `filenameformat`
becomes `"application/json"`, so `Filename` appends Go's
`%!(EXTRA ...)` marker instead of `".json"`. -/
theorem newCloudStorage_defaults_swapped :
    NewCloudStorage none [] =
      .ok { contenttype := "%s.json", filenameformat := "application/json" } ∧
    CloudStorage.Filename
        { contenttype := "%s.json", filenameformat := "application/json" } "mykey"
      = "application/json%!(EXTRA string=mykey)" ∧
    CloudStorage.Filename
        { contenttype := "%s.json", filenameformat := "application/json" } "mykey"
      ≠ "mykey.json" := by
  refine ⟨rfl, by decide, by decide⟩

/-- Claim C4: `Get` on a key with no backing object fails, and the
error satisfies `errors.Is` both against the public `ErrObjectNotFound`
sentinel and against the underlying `storage.ErrObjectNotExist`
cause. -/
theorem get_missing_key_notfound (T : Type) (cs : CloudStorage) (codec : Codec T)
    (f : Faults) (b : Bucket) (key : String) (hnr : f.newReader = none)
    (habs : b.lookup (cs.Filename key) = none) :
    ∃ e, querier.Get cs codec f b key = .error e ∧
      errorsIs e .errObjectNotFound = true ∧
      errorsIs e .errObjectNotExist = true := by
  refine ⟨_, get_absent T cs codec f b key hnr habs, ?_, ?_⟩ <;>
    simp [errorsIs]

/-- Witness for claim C4 at a concrete never-created key. -/
theorem get_missing_key_notfound_witness :
    ∃ e, querier.Get csDefault natCodec noFaults bEmpty "k" = .error e ∧
      errorsIs e .errObjectNotFound = true ∧
      errorsIs e .errObjectNotExist = true :=
  get_missing_key_notfound Nat csDefault natCodec noFaults bEmpty "k" rfl rfl
def bTwo : Bucket := ⟨[("k.json", ⟨[8], 9, "application/json"⟩)], 10⟩

def copyFault : Faults := ⟨none, some (.ioError "net"), none, none, none, none⟩

/-- Claim C5: on a key with no backing object, `Create` succeeds and a
subsequent `Get` returns the value written (serialize-then-deserialize
round-trip through the stored bytes). -/
theorem create_then_get_roundtrip (T : Type) (cs : CloudStorage) (codec : Codec T)
    (b : Bucket) (key : String) (v : T) (d : Bytes)
    (habs : b.lookup (cs.Filename key) = none)
    (hm : codec.marshal v = .ok d)
    (hu : codec.unmarshal d = .ok v) :
    (querier.Create cs codec noFaults b key v).err = none ∧
    querier.Get cs codec noFaults (querier.Create cs codec noFaults b key v).bucket key
      = .ok v := by
  have hcreate : querier.Create cs codec noFaults b key v =
      ⟨none, b.commit (cs.Filename key) d cs.contenttype, true⟩ := by
    unfold querier.Create CloudStorage.WriteFile gcsClose condHolds noFaults
    simp [hm, habs]
  refine ⟨by rw [hcreate], ?_⟩
  rw [hcreate]
  unfold querier.Get CloudStorage.GetFile gcsNewReader noFaults
  simp [lookup_commit_self, hu]

/-- Witness for claim C5 at a concrete key and value. -/
theorem create_then_get_roundtrip_witness :
    (querier.Create csDefault natCodec noFaults bEmpty "k" 7).err = none ∧
    querier.Get csDefault natCodec noFaults
      (querier.Create csDefault natCodec noFaults bEmpty "k" 7).bucket "k" = .ok 7 :=
  create_then_get_roundtrip Nat csDefault natCodec bEmpty "k" 7 [7] rfl rfl rfl

/-- Claim C7: `Create` on a key that already holds a stored value
returns an error (the `DoesNotExist` precondition fails at the commit
step) and leaves the bucket — the stored bytes and generation —
unchanged. -/
theorem create_existing_fails_unchanged (T : Type) (cs : CloudStorage) (codec : Codec T)
    (f : Faults) (b : Bucket) (key : String) (v2 : T) (st : StoredObject)
    (hex : b.lookup (cs.Filename key) = some st) :
    ((querier.Create cs codec f b key v2).err).isSome = true ∧
    (querier.Create cs codec f b key v2).bucket = b := by
  unfold querier.Create CloudStorage.WriteFile gcsClose condHolds
  cases hmv : codec.marshal v2 with
  | error e => simp
  | ok d =>
    cases hc : f.copy with
    | some e => simp [hc]
    | none => simp [hc, hex]

/-- Witness for claim C7 at a concrete occupied key. -/
theorem create_existing_fails_unchanged_witness :
    ((querier.Create csDefault natCodec noFaults bOne "k" 9).err).isSome = true ∧
    (querier.Create csDefault natCodec noFaults bOne "k" 9).bucket = bOne :=
  create_existing_fails_unchanged Nat csDefault natCodec noFaults bOne "k" 9
    ⟨[7], 5, "application/json"⟩ rfl

/-- Claim C1: when the generation observed at step 1 of `Put` no longer
matches at finalize time, `Put` returns the precondition-failure error
wrapped with the operation context: the error satisfies an
identity/kind check against the conflict condition, fails the checks
against `ErrObjectNotFound`, `storage.ErrObjectNotExist` and every
generic I/O error, and the mismatch is neither silently retried nor
silently accepted (the bucket is unchanged and an error is
returned). -/
theorem put_generation_conflict_reported (T : Type) (cs : CloudStorage) (codec : Codec T)
    (f : Faults) (b1 b2 : Bucket) (key : String) (obj : T) (d : Bytes)
    (st1 st2 : StoredObject)
    (hattrs : f.attrs = none) (hcopy : f.copy = none)
    (hm : codec.marshal obj = .ok d)
    (h1 : b1.lookup (cs.Filename key) = some st1)
    (h2 : b2.lookup (cs.Filename key) = some st2)
    (hgen : st2.generation ≠ st1.generation) :
    querier.Put cs codec f b1 b2 key obj =
      ⟨some (.wrapf ("Put " ++ key ++ ": Close: ") .errPreconditionFailed), b2, true⟩ ∧
    errorsIs (.wrapf ("Put " ++ key ++ ": Close: ") .errPreconditionFailed)
      .errPreconditionFailed = true ∧
    errorsIs (.wrapf ("Put " ++ key ++ ": Close: ") .errPreconditionFailed)
      .errObjectNotFound = false ∧
    errorsIs (.wrapf ("Put " ++ key ++ ": Close: ") .errPreconditionFailed)
      .errObjectNotExist = false ∧
    (∀ m, errorsIs (.wrapf ("Put " ++ key ++ ": Close: ") .errPreconditionFailed)
      (.ioError m) = false) := by
  refine ⟨?_, by simp [errorsIs], by simp [errorsIs], by simp [errorsIs],
    fun m => by simp [errorsIs]⟩
  unfold querier.Put putConditions gcsAttrs gcsClose condHolds
  simp [hattrs, hcopy, hm, h1, h2, hgen]

/-- Witness for claim C1: two bucket states over the same key with
different generations. -/
theorem put_generation_conflict_reported_witness :
    querier.Put csDefault natCodec noFaults bOne bTwo "k" 3 =
      ⟨some (.wrapf ("Put " ++ "k" ++ ": Close: ") .errPreconditionFailed), bTwo, true⟩ ∧
    errorsIs (.wrapf ("Put " ++ "k" ++ ": Close: ") .errPreconditionFailed)
      .errPreconditionFailed = true ∧
    errorsIs (.wrapf ("Put " ++ "k" ++ ": Close: ") .errPreconditionFailed)
      .errObjectNotFound = false ∧
    errorsIs (.wrapf ("Put " ++ "k" ++ ": Close: ") .errPreconditionFailed)
      .errObjectNotExist = false ∧
    (∀ m, errorsIs (.wrapf ("Put " ++ "k" ++ ": Close: ") .errPreconditionFailed)
      (.ioError m) = false) :=
  put_generation_conflict_reported Nat csDefault natCodec noFaults bOne bTwo "k" 3 [3]
    ⟨[7], 5, "application/json"⟩ ⟨[8], 9, "application/json"⟩
    rfl rfl rfl rfl rfl (by decide)

/-- Claim C6: under sequential non-concurrent use, `Put(k, v1)` then
`Put(k, v2)` then `Get(k)` all succeed and `Get` returns `v2`: each
later `Put` overwrites the earlier value, the second `Put` being scoped
by the generation the first produced. -/
theorem put_put_get_returns_latest (T : Type) (cs : CloudStorage) (codec : Codec T)
    (b : Bucket) (key : String) (v1 v2 : T) (d1 d2 : Bytes)
    (hm1 : codec.marshal v1 = .ok d1) (hm2 : codec.marshal v2 = .ok d2)
    (hu2 : codec.unmarshal d2 = .ok v2) :
    (querier.Put cs codec noFaults b b key v1).err = none ∧
    (querier.Put cs codec noFaults
        (querier.Put cs codec noFaults b b key v1).bucket
        (querier.Put cs codec noFaults b b key v1).bucket key v2).err = none ∧
    querier.Get cs codec noFaults
      (querier.Put cs codec noFaults
        (querier.Put cs codec noFaults b b key v1).bucket
        (querier.Put cs codec noFaults b b key v1).bucket key v2).bucket key
      = .ok v2 := by
  have h1 := put_seq_ok T cs codec b key v1 d1 hm1
  have h2 := put_seq_ok T cs codec (b.commit (cs.Filename key) d1 "application/json")
    key v2 d2 hm2
  simp only [h1]
  simp only [h2]
  refine ⟨trivial, trivial, ?_⟩
  unfold querier.Get CloudStorage.GetFile gcsNewReader noFaults
  simp [lookup_commit_self, hu2]

/-- Witness for claim C6 on a fresh key. -/
theorem put_put_get_returns_latest_witness :
    (querier.Put csDefault natCodec noFaults bEmpty bEmpty "k" 1).err = none ∧
    (querier.Put csDefault natCodec noFaults
        (querier.Put csDefault natCodec noFaults bEmpty bEmpty "k" 1).bucket
        (querier.Put csDefault natCodec noFaults bEmpty bEmpty "k" 1).bucket "k" 2).err
      = none ∧
    querier.Get csDefault natCodec noFaults
      (querier.Put csDefault natCodec noFaults
        (querier.Put csDefault natCodec noFaults bEmpty bEmpty "k" 1).bucket
        (querier.Put csDefault natCodec noFaults bEmpty bEmpty "k" 1).bucket "k" 2).bucket "k"
      = .ok 2 :=
  put_put_get_returns_latest Nat csDefault natCodec bEmpty "k" 1 2 [1] [2] rfl rfl rfl

/-- Claim C9: a `WriteFile` whose `io.Copy` fails (a failing reader, or
a failing stream) and a `Put` whose `io.Copy` fails return that error
without calling `writer.Close` — the finalize step never runs
(`closeCalled = false`) and the bucket is unchanged, so no object is
created or modified. -/
theorem copy_error_no_finalize :
    (∀ (cs : CloudStorage) (f : Faults) (b : Bucket) (key : String) (e : GoError),
      cs.WriteFile f b key (.error e) = ⟨some e, b, false⟩) ∧
    (∀ (cs : CloudStorage) (f : Faults) (b : Bucket) (key : String) (d : Bytes)
        (e : GoError),
      f.copy = some e → cs.WriteFile f b key (.ok d) = ⟨some e, b, false⟩) ∧
    (∀ (T : Type) (cs : CloudStorage) (codec : Codec T) (f : Faults) (b1 b2 : Bucket)
        (key : String) (obj : T) (d : Bytes) (c : Conditions) (e : GoError),
      putConditions f b1 (cs.Filename key) key = .ok c →
      codec.marshal obj = .ok d →
      f.copy = some e →
      querier.Put cs codec f b1 b2 key obj =
        ⟨some (.wrapf ("Put " ++ key ++ ": copy: ") e), b2, false⟩ ∧
      errorsIs (.wrapf ("Put " ++ key ++ ": copy: ") e) e = true) := by
  refine ⟨?_, ?_, ?_⟩
  · intro cs f b key e
    rfl
  · intro cs f b key d e hc
    unfold CloudStorage.WriteFile
    simp [hc]
  · intro T cs codec f b1 b2 key obj d c e hpc hm hc
    constructor
    · unfold querier.Put
      simp [hpc, hm, hc]
    · exact errorsIs_wrapf _ _ _ (errorsIs_self e)

/-- Witness for claim C9: a `Put` with a failing stream on a fresh
key. -/
theorem copy_error_no_finalize_witness :
    querier.Put csDefault natCodec copyFault bEmpty bEmpty "k" 7 =
      ⟨some (.wrapf ("Put " ++ "k" ++ ": copy: ") (.ioError "net")), bEmpty, false⟩ ∧
    errorsIs (.wrapf ("Put " ++ "k" ++ ": copy: ") (.ioError "net")) (.ioError "net")
      = true :=
  copy_error_no_finalize.2.2 Nat csDefault natCodec copyFault bEmpty bEmpty "k" 7 [7]
    .noCond (.ioError "net") rfl rfl rfl

/-- Claim C8: deleting an existing key succeeds and a subsequent `Get`
fails with the NotFound kind; deleting a non-existent key fails with
the NotFound kind and with no other error kind (not conflict, not I/O,
not encode/decode). -/
theorem delete_semantics :
    (∀ (T : Type) (cs : CloudStorage) (codec : Codec T) (b : Bucket) (key : String)
        (st : StoredObject), b.lookup (cs.Filename key) = some st →
      (querier.Delete cs noFaults b key).1 = none ∧
      ∃ e, querier.Get cs codec noFaults (querier.Delete cs noFaults b key).2 key
          = .error e ∧
        errorsIs e .errObjectNotFound = true) ∧
    (∀ (cs : CloudStorage) (f : Faults) (b : Bucket) (key : String),
      f.delete = none → b.lookup (cs.Filename key) = none →
      ∃ e, (querier.Delete cs f b key).1 = some e ∧
        errorsIs e .errObjectNotFound = true ∧
        errorsIs e .errPreconditionFailed = false ∧
        (∀ m, errorsIs e (.ioError m) = false) ∧
        (∀ m, errorsIs e (.marshalError m) = false) ∧
        (∀ m, errorsIs e (.unmarshalError m) = false)) := by
  constructor
  · intro T cs codec b key st hex
    have hdel := delete_existing cs noFaults b key st rfl hex
    refine ⟨by rw [hdel], ?_⟩
    rw [hdel]
    exact ⟨_, get_absent T cs codec noFaults (b.erase (cs.Filename key)) key rfl
      (lookup_erase_self b (cs.Filename key)), by simp [errorsIs]⟩
  · intro cs f b key hd habs
    refine ⟨.wrapf ("Delete " ++ key ++ ": ")
      (.storageErr .errObjectNotExist .errObjectNotFound),
      ?_, by simp [errorsIs], by simp [errorsIs],
      fun m => by simp [errorsIs], fun m => by simp [errorsIs],
      fun m => by simp [errorsIs]⟩
    unfold querier.Delete gcsDelete
    simp [hd, habs, wrapStorageError, errorsIs]

/-- Witness for claim C8: delete an occupied key, then an absent
one. -/
theorem delete_semantics_witness :
    ((querier.Delete csDefault noFaults bOne "k").1 = none ∧
      ∃ e, querier.Get csDefault natCodec noFaults
          (querier.Delete csDefault noFaults bOne "k").2 "k" = .error e ∧
        errorsIs e .errObjectNotFound = true) ∧
    (∃ e, (querier.Delete csDefault noFaults bEmpty "k").1 = some e ∧
      errorsIs e .errObjectNotFound = true ∧
      errorsIs e .errPreconditionFailed = false ∧
      (∀ m, errorsIs e (.ioError m) = false) ∧
      (∀ m, errorsIs e (.marshalError m) = false) ∧
      (∀ m, errorsIs e (.unmarshalError m) = false)) :=
  ⟨delete_semantics.1 Nat csDefault natCodec bOne "k" ⟨[7], 5, "application/json"⟩ rfl,
   delete_semantics.2 csDefault noFaults bEmpty "k" rfl rfl⟩

/-- Claim C2 (amended): every error returned by `Get`, `Put` and
`Delete` is an `fmt.Errorf` wrap whose message contains the operation
name and the key, and wrapping preserves `errors.Is` kind matching
against the wrapped error; `Create`, however, returns its errors
unwrapped — a `json.Marshal` failure is returned exactly as produced,
with no operation or key context. -/
theorem crud_errors_wrapped :
    (∀ (T : Type) (cs : CloudStorage) (codec : Codec T) (f : Faults) (b : Bucket)
        (key : String) (e : GoError),
      querier.Get cs codec f b key = .error e →
      ∃ p inner, e = .wrapf p inner ∧ strContains p ("Get " ++ key) = true ∧
        ∀ t, errorsIs inner t = true → errorsIs e t = true) ∧
    (∀ (T : Type) (cs : CloudStorage) (codec : Codec T) (f : Faults) (b1 b2 : Bucket)
        (key : String) (obj : T) (e : GoError),
      (querier.Put cs codec f b1 b2 key obj).err = some e →
      ∃ p inner, e = .wrapf p inner ∧ strContains p ("Put " ++ key) = true ∧
        ∀ t, errorsIs inner t = true → errorsIs e t = true) ∧
    (∀ (cs : CloudStorage) (f : Faults) (b : Bucket) (key : String) (e : GoError),
      (querier.Delete cs f b key).1 = some e →
      ∃ p inner, e = .wrapf p inner ∧ strContains p ("Delete " ++ key) = true ∧
        ∀ t, errorsIs inner t = true → errorsIs e t = true) ∧
    (∀ (T : Type) (cs : CloudStorage) (codec : Codec T) (f : Faults) (b : Bucket)
        (key : String) (obj : T) (e : GoError),
      codec.marshal obj = .error e →
      (querier.Create cs codec f b key obj).err = some e) := by
  refine ⟨?_, ?_, ?_, ?_⟩
  · intro T cs codec f b key e h
    unfold querier.Get at h
    cases hg : cs.GetFile f b key with
    | error err =>
      simp only [hg] at h
      injection h with h'
      subst h'
      exact ⟨_, err, rfl, strContains_append_left ("Get " ++ key) ": readall: ",
        fun t ht => errorsIs_wrapf _ _ _ ht⟩
    | ok data =>
      simp only [hg] at h
      cases hum : codec.unmarshal data with
      | error err =>
        simp only [hum] at h
        injection h with h'
        subst h'
        exact ⟨_, err, rfl, strContains_append_left ("Get " ++ key) ": ",
          fun t ht => errorsIs_wrapf _ _ _ ht⟩
      | ok v =>
        simp only [hum] at h
        exact absurd h (by simp)
  · intro T cs codec f b1 b2 key obj e h
    unfold querier.Put at h
    cases hpc : putConditions f b1 (cs.Filename key) key with
    | error e1 =>
      simp only [hpc] at h
      obtain ⟨ea, hea⟩ := putConditions_error f b1 (cs.Filename key) key e1 hpc
      subst hea
      injection h with h'
      subst h'
      exact ⟨_, ea, rfl, strContains_append_left ("Put " ++ key) ": Attrs: ",
        fun t ht => errorsIs_wrapf _ _ _ ht⟩
    | ok c =>
      simp only [hpc] at h
      cases hm : codec.marshal obj with
      | error em =>
        simp only [hm] at h
        injection h with h'
        subst h'
        exact ⟨_, em, rfl, strContains_append_left ("Put " ++ key) ": ",
          fun t ht => errorsIs_wrapf _ _ _ ht⟩
      | ok d =>
        simp only [hm] at h
        cases hc : f.copy with
        | some ec =>
          simp only [hc] at h
          injection h with h'
          subst h'
          exact ⟨_, ec, rfl, strContains_append_left ("Put " ++ key) ": copy: ",
            fun t ht => errorsIs_wrapf _ _ _ ht⟩
        | none =>
          simp only [hc] at h
          cases hcl : gcsClose f.close c b2 (cs.Filename key) "application/json" d with
          | mk oe b' =>
            cases oe with
            | some ecl =>
              simp only [hcl] at h
              injection h with h'
              subst h'
              exact ⟨_, ecl, rfl, strContains_append_left ("Put " ++ key) ": Close: ",
                fun t ht => errorsIs_wrapf _ _ _ ht⟩
            | none =>
              simp only [hcl] at h
              exact absurd h (by simp)
  · intro cs f b key e h
    cases hg : gcsDelete f.delete b (cs.Filename key) with
    | mk err b' =>
      simp only [querier.Delete, hg] at h
      cases herr2 : wrapStorageError err with
      | some err2 =>
        simp only [herr2] at h
        injection h with h'
        subst h'
        exact ⟨_, err2, rfl, strContains_append_left ("Delete " ++ key) ": ",
          fun t ht => errorsIs_wrapf _ _ _ ht⟩
      | none =>
        cases err with
        | none =>
          simp only [herr2] at h
          exact absurd h (by simp)
        | some e0 =>
          simp only [herr2] at h
          injection h with h'
          subst h'
          exact ⟨_, e0, rfl, strContains_append_left ("Delete " ++ key) ": ",
            fun t ht => errorsIs_wrapf _ _ _ ht⟩
  · intro T cs codec f b key obj e h
    unfold querier.Create
    simp [h]

/-- Counterexample for claim C2 as stated: `Create` with a failing
marshaller returns the marshal error itself — not an `fmt.Errorf` wrap,
and its message contains neither the operation name nor the key. -/
theorem create_error_not_wrapped_cex :
    (querier.Create csDefault badCodec noFaults bEmpty "k" 0).err
      = some (.marshalError "boom") ∧
    isWrapf (.marshalError "boom") = false ∧
    strContains (errorMessage (.marshalError "boom")) "k" = false ∧
    strContains (errorMessage (.marshalError "boom")) "Create" = false := by
  refine ⟨rfl, rfl, by decide, by decide⟩

/-- Witness for claim C2 (amended), on the `Delete` conjunct at a
concrete absent key. -/
theorem crud_errors_wrapped_witness :
    ∃ p inner,
      GoError.wrapf ("Delete " ++ "k" ++ ": ")
          (.storageErr .errObjectNotExist .errObjectNotFound) = .wrapf p inner ∧
      strContains p ("Delete " ++ "k") = true ∧
      ∀ t, errorsIs inner t = true →
        errorsIs (GoError.wrapf ("Delete " ++ "k" ++ ": ")
          (.storageErr .errObjectNotExist .errObjectNotFound)) t = true :=
  crud_errors_wrapped.2.2.1 csDefault noFaults bEmpty "k"
    (GoError.wrapf ("Delete " ++ "k" ++ ": ")
      (.storageErr .errObjectNotExist .errObjectNotFound)) (by rfl)
